import Mathlib

/-!
Verification development for the AD2CP telemetry decoder / MAT-container
converter (`Sensors/ad2cpMAT.c`).  C `double`s are modelled as exact
rationals (`ℚ`), machine integers as `Nat`/`Int`; the file's statics and
the locals of `main` become an explicit state record threaded through a
step function, and C undefined behaviour (writes through NULL or past an
allocation, reads of uninitialized locals) is surfaced as an explicit
error of the step function.
-/

namespace Ad2cp

/-- A 3×3 matrix of doubles (`double[3][3]`), modelled over `ℚ`. -/
structure Matrix3 where
  m11 : ℚ
  m12 : ℚ
  m13 : ℚ
  m21 : ℚ
  m22 : ℚ
  m23 : ℚ
  m31 : ℚ
  m32 : ℚ
  m33 : ℚ
deriving DecidableEq

/-- Flat element access `*(T + j * 3 + k)` for row `j`, column `k`. -/
def Matrix3.el (A : Matrix3) (j k : Nat) : ℚ :=
  match j, k with
  | 0, 0 => A.m11
  | 0, 1 => A.m12
  | 0, 2 => A.m13
  | 1, 0 => A.m21
  | 1, 1 => A.m22
  | 1, 2 => A.m23
  | 2, 0 => A.m31
  | 2, 1 => A.m32
  | 2, 2 => A.m33
  | _, _ => 0

/-- Constant `beam_124` transformation matrix. -/
def beam_124 : Matrix3 :=
  ⟨1.3564, -0.5056, -0.5056,
   0.0000, -1.1831, 1.1831,
   0.0000, 0.5518, 0.5518⟩

/-- Constant `beam_234` transformation matrix. -/
def beam_234 : Matrix3 :=
  ⟨0.5056, -1.3564, 0.5056,
   -1.1831, 0.0000, 1.1831,
   0.5518, 0.0000, 0.5518⟩

/-- Constant identity matrix `beam_ident`. -/
def beam_ident : Matrix3 :=
  ⟨1, 0, 0,
   0, 1, 0,
   0, 0, 1⟩

/-- Comparison `matrix_equal`: element-wise exact comparison, row by row, column by
column; returns 0 for equal, 1 for not equal (the C loop unrolled). -/
def matrix_equal (A B : Matrix3) : Nat :=
  if A.m11 ≠ B.m11 then 1 else
  if A.m12 ≠ B.m12 then 1 else
  if A.m13 ≠ B.m13 then 1 else
  if A.m21 ≠ B.m21 then 1 else
  if A.m22 ≠ B.m22 then 1 else
  if A.m23 ≠ B.m23 then 1 else
  if A.m31 ≠ B.m31 then 1 else
  if A.m32 ≠ B.m32 then 1 else
  if A.m33 ≠ B.m33 then 1 else 0

set_option maxHeartbeats 1000000 in
lemma matrix_equal_eq_zero_iff (A B : Matrix3) : matrix_equal A B = 0 ↔ A = B := by
  obtain ⟨a11, a12, a13, a21, a22, a23, a31, a32, a33⟩ := A
  obtain ⟨b11, b12, b13, b21, b22, b23, b31, b32, b33⟩ := B
  simp only [matrix_equal, Matrix3.mk.injEq]
  split_ifs with h1 h2 h3 h4 h5 h6 h7 h8 h9
  · simp [h1]
  · simp [h2]
  · simp [h3]
  · simp [h4]
  · simp [h5]
  · simp [h6]
  · simp [h7]
  · simp [h8]
  · simp [h9]
  · simp only [ne_eq, not_not] at h1 h2 h3 h4 h5 h6 h7 h8 h9
    simp [h1, h2, h3, h4, h5, h6, h7, h8, h9]

/-- Byte-at-a-time synchronization scan of the read loop: discard bytes
until `0xa5`; then read one more byte; on `0x0a` the sync is found and the
rest of the stream follows, otherwise both bytes are dropped and the scan
resumes with a fresh byte. -/
def scanSync : List Nat → Option (List Nat)
  | [] => none
  | b :: rest =>
    if b ≠ 0xa5 then scanSync rest
    else
      match rest with
      | [] => none
      | b2 :: rest2 => if b2 ≠ 0x0a then scanSync rest2 else some rest2

/-- One frame read: sync scan, then the 8-byte prefix
(id, family, little-endian length, data checksum, header checksum),
then exactly `sz` payload bytes; a short read ends the stream. -/
def nextFrame (s : List Nat) : Option ((Nat × Nat × List Nat) × List Nat) :=
  match scanSync s with
  | none => none
  | some rest =>
    match rest with
    | id :: fam :: s0 :: s1 :: _ck0 :: _ck1 :: _ck2 :: _ck3 :: rest2 =>
      let sz := s0 + s1 * 256
      if sz ≤ rest2.length then some ((id, fam, rest2.take sz), rest2.drop sz)
      else none
    | _ => none

/-- Fields of `OutputData3_t` that the decode loop reads, together with the
trailing sample block.  The unioned cell field keeps its raw 16-bit value
(`cellsField` plays both `beams_cy_cells` and `echo_cells`); the bit-packed
sub-fields are read from it below.  `timeVal` stands for the value
`mktime(&tm) + microSeconds100/1e4` that the loop stores into the time
channel (calendar arithmetic is outside every claim and kept abstract).
The sample block is modelled as the flat index functions the loop reads
(`hVel[...]`, `cAmp[...]`, `cCorr[...]`, `hEcho[...]`). -/
structure EnsembleData where
  pressure : Nat
  temperature : Int
  heading : Nat
  pitch : Int
  roll : Int
  cellsField : Nat
  cellSize : Nat
  blanking : Nat
  magnHxHyHz : Fin 3 → Int
  velocityScaling : Int
  powerLevel : Int
  dataSetDesc : Nat
  ampIncluded : Bool
  corrIncluded : Bool
  timeVal : ℚ
  hVel : Nat → Int
  cAmp : Nat → Nat
  cCorr : Nat → Nat
  hEcho : Nat → Nat

/-- Bit field `beams_cy_cells.numCells`: low 10 bits of the unioned field. -/
def numCells (e : EnsembleData) : Nat := e.cellsField % 1024

/-- Bit field `beams_cy_cells.numBeams`: top 4 bits of the unioned field. -/
def numBeams (e : EnsembleData) : Nat := e.cellsField / 4096 % 16

/-- Union member `echo_cells`: the unioned field read as a whole 16-bit count. -/
def echoCells (e : EnsembleData) : Nat := e.cellsField

/-- Nibble `DataSetDescription4bit.beamData1`: lowest nibble. -/
def beamData1 (e : EnsembleData) : Nat := e.dataSetDesc % 16

/-- Nibble `DataSetDescription4bit.beamData2`: second nibble. -/
def beamData2 (e : EnsembleData) : Nat := e.dataSetDesc / 16 % 16

/-- Nibble `DataSetDescription4bit.beamData3`: third nibble. -/
def beamData3 (e : EnsembleData) : Nat := e.dataSetDesc / 256 % 16

/-- Nibble `DataSetDescription4bit.beamData4`: top nibble. -/
def beamData4 (e : EnsembleData) : Nat := e.dataSetDesc / 4096 % 16

/-- One record handed to the decode loop, at the granularity the loop
branches on: a configuration-string record (id `0xA0`) carries the result
of the `strstr`/`sscanf` scan for `GETXFAVG` (`none`: key absent;
`some none`: key present but fewer than nine values parsed;
`some (some M)`: all nine matrix values parsed); an ensemble record
carries its id byte and decoded header; every other id is ignored. -/
inductive Rec
  | config (getxfavg : Option (Option Matrix3))
  | ens (id : Nat) (e : EnsembleData)
  | other

/-- Decoder state: the statics and loop-carried locals of `main`.  Array
channels are total functions; the `echoAlloc` / `velAlloc` flags record
which of the mutually exclusive channel families has actually been
allocated (a NULL pointer in the C program), and `T` is the transform
local (`none` = never assigned, i.e. uninitialized). -/
structure St where
  count : Nat
  max_count : Nat
  num_beams : Nat
  num_cells : Nat
  cellSize : ℚ
  blanking : ℚ
  echoAlloc : Bool
  velAlloc : Bool
  T : Option Matrix3
  beamv : Nat → Nat → Nat → ℚ
  ampArr : Nat → Nat → Nat → Nat
  corrArr : Nat → Nat → Nat → Nat
  echoArr : Nat → Nat → ℚ
  pressureArr : Nat → ℚ
  temperatureArr : Nat → ℚ
  headingArr : Nat → ℚ
  pitchArr : Nat → ℚ
  rollArr : Nat → ℚ
  tArr : Nat → ℚ
  magXArr : Nat → Int
  magYArr : Nat → Int
  magZArr : Nat → Int
  beamNArr : Nat → Int
  powerArr : Nat → Int
  ampInc : Bool
  corrInc : Bool

/-- Initial state: `count = 0`, `max_count = 1000`, zeroed statics,
nothing allocated, transform local uninitialized. -/
def initSt : St where
  count := 0
  max_count := 1000
  num_beams := 0
  num_cells := 0
  cellSize := 0
  blanking := 0
  echoAlloc := false
  velAlloc := false
  T := none
  beamv := fun _ _ _ => 0
  ampArr := fun _ _ _ => 0
  corrArr := fun _ _ _ => 0
  echoArr := fun _ _ => 0
  pressureArr := fun _ => 0
  temperatureArr := fun _ => 0
  headingArr := fun _ => 0
  pitchArr := fun _ => 0
  rollArr := fun _ => 0
  tArr := fun _ => 0
  magXArr := fun _ => 0
  magYArr := fun _ => 0
  magZArr := fun _ => 0
  beamNArr := fun _ => 0
  powerArr := fun _ => 0
  ampInc := false
  corrInc := false

/-- Run-ending events: the explicit `return 1` on a configuration-matrix
mismatch, and the two kinds of C undefined behaviour the loop can commit
(a write through a NULL/unallocated pointer or past an allocated extent,
and a read of the transform local before any assignment). -/
inductive RunErr
  | configMismatch
  | oobWrite
  | uninitRead
deriving DecidableEq

/-- Pointwise update of a one-index channel. -/
def upd1 {α : Type} (f : Nat → α) (i : Nat) (v : α) : Nat → α :=
  fun i' => if i' = i then v else f i'

/-- Pointwise update of a two-index channel. -/
def upd2 {α : Type} (f : Nat → Nat → α) (i c : Nat) (v : α) : Nat → Nat → α :=
  fun i' c' => if i' = i ∧ c' = c then v else f i' c'

/-- Pointwise update of a three-index channel. -/
def upd3 {α : Type} (f : Nat → Nat → Nat → α) (j i c : Nat) (v : α) :
    Nat → Nat → Nat → α :=
  fun j' i' c' => if j' = j ∧ i' = i ∧ c' = c then v else f j' i' c'

/-- Transform selection performed for every ensemble record: the ordered
nibble tuple `(1,2,4,0)` selects `beam_124`, `(2,3,4,0)` selects
`beam_234`, any other tuple falls back to the identity matrix when the
run's beam count is 3 and otherwise leaves the transform local untouched. -/
def selectT (Tprev : Option Matrix3) (nb b1 b2 b3 b4 : Nat) : Option Matrix3 :=
  if b1 = 1 ∧ b2 = 2 ∧ b3 = 4 ∧ b4 = 0 then some beam_124
  else if b1 = 2 ∧ b2 = 3 ∧ b3 = 4 ∧ b4 = 0 then some beam_234
  else if nb = 3 then some beam_ident
  else Tprev

/-- Scale factor `pow(10.0, velocityScaling)`. -/
def velScale (e : EnsembleData) : ℚ := (10 : ℚ) ^ e.velocityScaling

/-- Inner accumulation `Vxyz[j] = Σ_k T[j][k] * V123[k]` with
`V123[k] = scale * hVel[k*numCells + i]` (the two j/k loops of the
3-beam branch, in exact arithmetic). -/
def vxyz (T : Matrix3) (scale : ℚ) (e : EnsembleData) (i j : Nat) : ℚ :=
  ∑ k ∈ Finset.range (numBeams e), T.el j k * (scale * (e.hVel (k * numCells e + i) : ℚ))

/-- Per-cell store of the raw-beam branch (`numBeams ≠ 3`):
`beamv[j][i][count] = hVel[j*numCells + i]` for each beam `j`. -/
def storeBeamRaw (e : EnsembleData) (cnt i : Nat) (A : Nat → Nat → Nat → ℚ) :
    Nat → Nat → Nat → ℚ :=
  (List.range (numBeams e)).foldl
    (fun A j => upd3 A j i cnt ((e.hVel (j * numCells e + i) : ℚ))) A

/-- Per-cell store of the transform branch (`numBeams = 3`):
`beamv[j][i][count] = Vxyz[j]`. -/
def storeBeamXyz (T : Matrix3) (scale : ℚ) (e : EnsembleData) (cnt i : Nat)
    (A : Nat → Nat → Nat → ℚ) : Nat → Nat → Nat → ℚ :=
  (List.range (numBeams e)).foldl (fun A j => upd3 A j i cnt (vxyz T scale e i j)) A

/-- Per-cell store `amp[j][i][count] = cAmp[j*numCells + i]`. -/
def storeAmp (e : EnsembleData) (cnt i : Nat) (A : Nat → Nat → Nat → Nat) :
    Nat → Nat → Nat → Nat :=
  (List.range (numBeams e)).foldl
    (fun A j => upd3 A j i cnt (e.cAmp (j * numCells e + i))) A

/-- Per-cell store `corr[j][i][count] = cCorr[j*numCells + i]`. -/
def storeCorr (e : EnsembleData) (cnt i : Nat) (A : Nat → Nat → Nat → Nat) :
    Nat → Nat → Nat → Nat :=
  (List.range (numBeams e)).foldl
    (fun A j => upd3 A j i cnt (e.cCorr (j * numCells e + i))) A

/-- Body of the cell loop of a velocity/burst/average record: velocity
store (raw or transformed depending on the beam count), then amplitude,
then correlation. -/
def velBody (T : Matrix3) (scale : ℚ) (e : EnsembleData) (cnt : Nat)
    (st : St) (i : Nat) : St :=
  let st :=
    if numBeams e ≠ 3 then { st with beamv := storeBeamRaw e cnt i st.beamv }
    else { st with beamv := storeBeamXyz T scale e cnt i st.beamv }
  let st := { st with ampArr := storeAmp e cnt i st.ampArr }
  { st with corrArr := storeCorr e cnt i st.corrArr }

/-- The cell loop `for (i = 0; i < numCells; i++) ...` of a
velocity/burst/average record. -/
def velLoop (T : Matrix3) (scale : ℚ) (e : EnsembleData) (cnt : Nat) (st : St) : St :=
  (List.range (numCells e)).foldl (velBody T scale e cnt) st

/-- The echo cell loop `for (i = 0; i < num_cells; i++)
echo[i][count] = hEcho[i] * 0.01` (note: the bound is the run's sizing
`num_cells`, not the record's own field). -/
def echoLoop (e : EnsembleData) (cnt nc : Nat) (A : Nat → Nat → ℚ) : Nat → Nat → ℚ :=
  (List.range nc).foldl (fun A i => upd2 A i cnt ((e.hEcho i : ℚ) * 0.01)) A

/-- Handler of a configuration-string record (id `0xA0`): no `GETXFAVG`
key or a malformed assignment list is ignored (the latter with a
warning); nine parsed values are compared bit-exactly against the two
known matrices and a third outcome aborts the program (`return 1`). -/
def stepConfig (st : St) (g : Option (Option Matrix3)) : Except RunErr St :=
  match g with
  | none => .ok st
  | some none => .ok st
  | some (some M) =>
    if matrix_equal M beam_124 = 0 then .ok st
    else if matrix_equal M beam_234 = 0 then .ok st
    else .error .configMismatch

/-- First stage of an ensemble record: overwrite the `cellSize` and
`blanking` statics with this record's scaled header values. -/
def stCB (st : St) (e : EnsembleData) : St :=
  { st with cellSize := (e.cellSize : ℚ) / 1000, blanking := (e.blanking : ℚ) / 100 }

/-- Lazy sizing on the first ensemble: an echo record fixes the flat echo
cell count and beam count 1 and allocates the echo-family arrays; any
other ensemble record fixes the packed cell/beam counts and allocates
the velocity-family arrays. -/
def stSized (st : St) (id : Nat) (e : EnsembleData) : St :=
  if st.count = 0 then
    if id = 0x1c then
      { st with num_cells := echoCells e, num_beams := 1, echoAlloc := true }
    else
      { st with num_cells := numCells e, num_beams := numBeams e, velAlloc := true }
  else st

/-- Scalar channel stores at column `count`, plus the head-configuration
flags the final writer call reads back. -/
def stScal (st : St) (e : EnsembleData) : St :=
  { st with
    pressureArr := upd1 st.pressureArr st.count ((e.pressure : ℚ) * 0.001),
    temperatureArr := upd1 st.temperatureArr st.count ((e.temperature : ℚ) * 0.01),
    headingArr := upd1 st.headingArr st.count ((e.heading : ℚ) * 0.01),
    pitchArr := upd1 st.pitchArr st.count ((e.pitch : ℚ) * 0.01),
    rollArr := upd1 st.rollArr st.count ((e.roll : ℚ) * 0.01),
    magXArr := upd1 st.magXArr st.count (e.magnHxHyHz 0),
    magYArr := upd1 st.magYArr st.count (e.magnHxHyHz 1),
    magZArr := upd1 st.magZArr st.count (e.magnHxHyHz 2),
    tArr := upd1 st.tArr st.count e.timeVal,
    ampInc := e.ampIncluded,
    corrInc := e.corrIncluded }

/-- Transform selection stage. -/
def stSel (st : St) (e : EnsembleData) : St :=
  { st with T := selectT st.T st.num_beams
                   (beamData1 e) (beamData2 e) (beamData3 e) (beamData4 e) }

/-- Handler of an ensemble record (ids `0x1c`, `0x15`, `0x16`): update
the cellSize/blanking statics, size the storage on the first ensemble,
store the scalar channels at column `count`, run transform selection, and
store the family-specific sample block; every write outside an allocation
(including through a NULL pointer of the other family) and every use of
the never-assigned transform local is surfaced as an error. -/
def stepEns (st : St) (id : Nat) (e : EnsembleData) : Except RunErr St :=
  let s2 := stSized (stCB st e) id e
  if s2.max_count ≤ s2.count then .error .oobWrite
  else
    let s4 := stSel (stScal s2 e) e
    if id = 0x15 ∨ id = 0x16 then
      if numCells e = 0 ∨ numBeams e = 0 then .ok { s4 with count := s4.count + 1 }
      else if numBeams e = 3 ∧ s4.T = none then .error .uninitRead
      else if s4.velAlloc = false then .error .oobWrite
      else if s4.num_cells < numCells e then .error .oobWrite
      else if 4 < numBeams e then .error .oobWrite
      else .ok { velLoop (s4.T.getD beam_ident) (velScale e) e s4.count s4 with
                 count := s4.count + 1 }
    else
      if s4.echoAlloc = false then .error .oobWrite
      else
        .ok { s4 with
              powerArr := upd1 s4.powerArr s4.count e.powerLevel,
              beamNArr := upd1 s4.beamNArr s4.count (Int.ofNat (beamData1 e)),
              echoArr := echoLoop e s4.count s4.num_cells s4.echoArr,
              count := s4.count + 1 }

/-- Dispatch on one record, as the body of the read loop does on the
frame id: configuration strings, the three ensemble ids, everything else
ignored. -/
def stepRecord (st : St) (r : Rec) : Except RunErr St :=
  match r with
  | .config g => stepConfig st g
  | .other => .ok st
  | .ens id e =>
    if id = 0x1c ∨ id = 0x15 ∨ id = 0x16 then stepEns st id e else .ok st

/-- The decode loop over a stream of records; an error aborts the run. -/
def runLoop (st : St) : List Rec → Except RunErr St
  | [] => .ok st
  | r :: rest =>
    match stepRecord st r with
    | .error err => .error err
    | .ok st' => runLoop st' rest

/-- The fixed per-array header written by each serializer function. -/
structure MATheader where
  type : Int
  mrows : Int
  ncols : Int
  imagf : Int
  namlen : Int
deriving DecidableEq

/-- One item of the serialized container, at the granularity the C code
writes: a header struct, a name byte, an 8-byte double, or a 2-byte
short. -/
inductive Tok
  | hdr (h : MATheader)
  | ch (b : Nat)
  | f64 (x : ℚ)
  | i16 (x : Int)
deriving DecidableEq

/-- Byte values of a name string. -/
def nameBytes (s : String) : List Nat := s.data.map Char.toNat

/-- Writer `MatlabDoubleVector`: header with type tag `arch*1000` (double, full
matrix), `mrows = n`, `ncols = 1`, `imagf = 0`, `namlen = strlen+1`; then
the NUL-terminated name; then the `n` doubles. -/
def MatlabDoubleVector (arch : Nat) (a : List ℚ) (name : List Nat) : List Tok :=
  Tok.hdr ⟨(arch * 1000 + 0 * 100 + 0 * 10 + 0 * 1 : Nat), (a.length : Nat), 1, 0,
           (name.length + 1 : Nat)⟩ ::
    (name.map Tok.ch ++ [Tok.ch 0] ++ a.map Tok.f64)

/-- Writer `MatlabVector`: as above with type tag `arch*1000 + (3+unsign)*10`
(16-bit elements) and short payload. -/
def MatlabVector (arch : Nat) (a : List Int) (name : List Nat) (unsign : Nat) :
    List Tok :=
  Tok.hdr ⟨(arch * 1000 + 0 * 100 + (3 + unsign) * 10 + 0 * 1 : Nat), (a.length : Nat),
           1, 0, (name.length + 1 : Nat)⟩ ::
    (name.map Tok.ch ++ [Tok.ch 0] ++ a.map Tok.i16)

/-- Column-major payload order of `MatlabMatrix`/`MatlabDoubleMatrix`:
columns outer, rows inner, element `a[j][i]` for row `j`, column `i`. -/
def colMajor {α : Type} (nr nc : Nat) (a : Nat → Nat → α) : List α :=
  (List.range nc).flatMap (fun i => (List.range nr).map (fun j => a j i))

/-- Writer `MatlabMatrix`: 16-bit matrix, `nr × nc`, column-major payload. -/
def MatlabMatrix (arch : Nat) (a : Nat → Nat → Int) (nr nc : Nat) (name : List Nat) :
    List Tok :=
  Tok.hdr ⟨(arch * 1000 + 0 * 100 + 3 * 10 + 0 * 1 : Nat), (nr : Nat), (nc : Nat), 0,
           (name.length + 1 : Nat)⟩ ::
    (name.map Tok.ch ++ [Tok.ch 0] ++ (colMajor nr nc a).map Tok.i16)

/-- Writer `MatlabDoubleMatrix`: double matrix, `nr × nc`, column-major payload. -/
def MatlabDoubleMatrix (arch : Nat) (a : Nat → Nat → ℚ) (nr nc : Nat) (name : List Nat) :
    List Tok :=
  Tok.hdr ⟨(arch * 1000 + 0 * 100 + 0 * 10 + 0 * 1 : Nat), (nr : Nat), (nc : Nat), 0,
           (name.length + 1 : Nat)⟩ ::
    (name.map Tok.ch ++ [Tok.ch 0] ++ (colMajor nr nc a).map Tok.f64)

/-- A named array handed to the writer, one constructor per serializer
function of the C program. -/
inductive NamedArray
  | dvec (name : List Nat) (a : List ℚ)
  | svec (name : List Nat) (a : List Int) (unsign : Nat)
  | smat (name : List Nat) (nr nc : Nat) (a : Nat → Nat → Int)
  | dmat (name : List Nat) (nr nc : Nat) (a : Nat → Nat → ℚ)

/-- Serialize one named array with the corresponding writer function. -/
def writeEntry (arch : Nat) : NamedArray → List Tok
  | .dvec name a => MatlabDoubleVector arch a name
  | .svec name a unsign => MatlabVector arch a name unsign
  | .smat name nr nc a => MatlabMatrix arch a nr nc name
  | .dmat name nr nc a => MatlabDoubleMatrix arch a nr nc name

/-- Serialize an ordered list of named arrays back to back. -/
def writeAll (arch : Nat) (l : List NamedArray) : List Tok :=
  (l.map (writeEntry arch)).flatten

/-- First `n` columns of a one-index channel as a list. -/
def colsList {α : Type} (n : Nat) (f : Nat → α) : List α :=
  (List.range n).map f

/-- Drain `WriteMatlab`: the ordered list of arrays drained into the container
at end of run — echo family (echo matrix, beam and power vectors) or
velocity family (3 or 4 velocity matrices, then correlation and
amplitude matrices when flagged), then the environmental scalar vectors,
magnetometer vectors, the time vector and the two scalar constants. -/
def WriteMatlab (st : St) : List NamedArray :=
  (if st.echoAlloc then
    [NamedArray.dmat (nameBytes "echo") st.num_cells st.count st.echoArr,
     NamedArray.svec (nameBytes "beam") (colsList st.count st.beamNArr) 0,
     NamedArray.svec (nameBytes "power") (colsList st.count st.powerArr) 0]
   else
    (if st.num_beams = 4 then
      [NamedArray.dmat (nameBytes "vel1") st.num_cells st.count (st.beamv 0),
       NamedArray.dmat (nameBytes "vel2") st.num_cells st.count (st.beamv 1),
       NamedArray.dmat (nameBytes "vel3") st.num_cells st.count (st.beamv 2),
       NamedArray.dmat (nameBytes "vel4") st.num_cells st.count (st.beamv 3)]
     else
      [NamedArray.dmat (nameBytes "velX") st.num_cells st.count (st.beamv 0),
       NamedArray.dmat (nameBytes "velY") st.num_cells st.count (st.beamv 1),
       NamedArray.dmat (nameBytes "velZ") st.num_cells st.count (st.beamv 2)]) ++
    (if st.corrInc then
      [NamedArray.smat (nameBytes "corr1") st.num_cells st.count
         (fun j i => (st.corrArr 0 j i : Int)),
       NamedArray.smat (nameBytes "corr2") st.num_cells st.count
         (fun j i => (st.corrArr 1 j i : Int)),
       NamedArray.smat (nameBytes "corr3") st.num_cells st.count
         (fun j i => (st.corrArr 2 j i : Int))] ++
      (if st.num_beams = 4 then
        [NamedArray.smat (nameBytes "corr4") st.num_cells st.count
           (fun j i => (st.corrArr 3 j i : Int))]
       else [])
     else []) ++
    (if st.ampInc then
      [NamedArray.smat (nameBytes "amp1") st.num_cells st.count
         (fun j i => (st.ampArr 0 j i : Int)),
       NamedArray.smat (nameBytes "amp2") st.num_cells st.count
         (fun j i => (st.ampArr 1 j i : Int)),
       NamedArray.smat (nameBytes "amp3") st.num_cells st.count
         (fun j i => (st.ampArr 2 j i : Int))] ++
      (if st.num_beams = 4 then
        [NamedArray.smat (nameBytes "amp4") st.num_cells st.count
           (fun j i => (st.ampArr 3 j i : Int))]
       else [])
     else [])) ++
  [NamedArray.dvec (nameBytes "pressure") (colsList st.count st.pressureArr),
   NamedArray.dvec (nameBytes "temperature") (colsList st.count st.temperatureArr),
   NamedArray.dvec (nameBytes "heading") (colsList st.count st.headingArr),
   NamedArray.dvec (nameBytes "pitch") (colsList st.count st.pitchArr),
   NamedArray.dvec (nameBytes "roll") (colsList st.count st.rollArr),
   NamedArray.svec (nameBytes "magX") (colsList st.count st.magXArr) 0,
   NamedArray.svec (nameBytes "magY") (colsList st.count st.magYArr) 0,
   NamedArray.svec (nameBytes "magZ") (colsList st.count st.magZArr) 0,
   NamedArray.dvec (nameBytes "time") (colsList st.count st.tArr),
   NamedArray.dvec (nameBytes "cellSize") [st.cellSize],
   NamedArray.dvec (nameBytes "blanking") [st.blanking]]

/-- The whole run: drain the record stream through the decode loop, then
(only on success) invoke the writer once on the accumulated state.  An
error run writes nothing to the container. -/
def runProgram (arch : Nat) (recs : List Rec) : Except RunErr (List Tok) :=
  (runLoop initSt recs).map (fun st => writeAll arch (WriteMatlab st))

/-- Element kinds a container entry can carry. -/
inductive ElemKind
  | f64
  | i16
  | u16
deriving DecidableEq

/-- A payload as recovered by a reader, typed by element kind. -/
inductive Vals
  | f64 (xs : List ℚ)
  | i16 (xs : List Int)
deriving DecidableEq

/-- One array as recovered by a reader: byte-order indicator, element
kind, dimensions, name, and the column-major element payload. -/
structure Parsed where
  arch : Int
  kind : ElemKind
  rows : Nat
  cols : Nat
  name : List Nat
  vals : Vals
deriving DecidableEq

/-- Modelled from the spec: a reference reader for the level-4 container
format of §4.6/§8 (the repository contains only the writer).  Read `n`
name bytes. -/
def readChars : Nat → List Tok → Option (List Nat × List Tok)
  | 0, ts => some ([], ts)
  | n + 1, Tok.ch b :: ts => (readChars n ts).map (fun p => (b :: p.1, p.2))
  | _ + 1, _ => none

/-- Modelled from the spec: read `n` doubles of payload. -/
def readF64s : Nat → List Tok → Option (List ℚ × List Tok)
  | 0, ts => some ([], ts)
  | n + 1, Tok.f64 x :: ts => (readF64s n ts).map (fun p => (x :: p.1, p.2))
  | _ + 1, _ => none

/-- Modelled from the spec: read `n` shorts of payload. -/
def readI16s : Nat → List Tok → Option (List Int × List Tok)
  | 0, ts => some ([], ts)
  | n + 1, Tok.i16 x :: ts => (readI16s n ts).map (fun p => (x :: p.1, p.2))
  | _ + 1, _ => none

/-- Modelled from the spec: decode the precision digit of the type tag
(0 = double, 3 = signed 16-bit, 4 = unsigned 16-bit). -/
def kindOfDigit (p : Int) : Option ElemKind :=
  if p = 0 then some .f64
  else if p = 3 then some .i16
  else if p = 4 then some .u16
  else none

/-- Modelled from the spec: read one array — the fixed header (rejecting
a present imaginary part, a non-zero matrix-layout digit, negative
dimensions, or a non-positive name length), then `namlen` name bytes
taking the name up to the terminating NUL, then `mrows*ncols` elements of
the kind the type tag announces. -/
def readEntry (ts : List Tok) : Option (Parsed × List Tok) :=
  match ts with
  | Tok.hdr h :: ts1 =>
    if h.imagf ≠ 0 then none
    else if h.type % 10 ≠ 0 then none
    else if h.mrows < 0 ∨ h.ncols < 0 ∨ h.namlen ≤ 0 then none
    else
      match readChars h.namlen.toNat ts1 with
      | none => none
      | some (bs, ts2) =>
        if bs.getLast? ≠ some 0 then none
        else
          match kindOfDigit (h.type / 10 % 10) with
          | none => none
          | some kind =>
            let nr := h.mrows.toNat
            let nc := h.ncols.toNat
            let name := bs.takeWhile (fun b => b ≠ 0)
            match kind with
            | .f64 =>
              match readF64s (nr * nc) ts2 with
              | none => none
              | some (xs, ts3) =>
                some (⟨h.type / 1000, kind, nr, nc, name, .f64 xs⟩, ts3)
            | _ =>
              match readI16s (nr * nc) ts2 with
              | none => none
              | some (xs, ts3) =>
                some (⟨h.type / 1000, kind, nr, nc, name, .i16 xs⟩, ts3)
  | _ => none

/-- Modelled from the spec: read arrays until the container is
exhausted, with fuel (an entry always consumes at least one item). -/
def readMany : Nat → List Tok → Option (List Parsed)
  | _, [] => some []
  | 0, _ :: _ => none
  | fuel + 1, ts =>
    match readEntry ts with
    | none => none
    | some (p, rest) => (readMany fuel rest).map (fun l => p :: l)

/-- Modelled from the spec: read a whole container. -/
def readAll (ts : List Tok) : Option (List Parsed) :=
  readMany ts.length ts

/-- The value a faithful reader must recover for one written entry. -/
def parsedOf (arch : Nat) : NamedArray → Parsed
  | .dvec name a => ⟨(arch : Int), .f64, a.length, 1, name, .f64 a⟩
  | .svec name a unsign =>
    ⟨(arch : Int), if unsign = 0 then .i16 else .u16, a.length, 1, name, .i16 a⟩
  | .smat name nr nc a => ⟨(arch : Int), .i16, nr, nc, name, .i16 (colMajor nr nc a)⟩
  | .dmat name nr nc a => ⟨(arch : Int), .f64, nr, nc, name, .f64 (colMajor nr nc a)⟩

/-- Well-formedness of a writer argument: the name holds no NUL byte (the
written name field is NUL-terminated), and the unsigned flag of the
16-bit vector writer is 0 or 1 (the digit `3+unsign` must stay a digit). -/
def wfEntry : NamedArray → Prop
  | .dvec name _ => 0 ∉ name
  | .svec name _ unsign => 0 ∉ name ∧ unsign ≤ 1
  | .smat name _ _ _ => 0 ∉ name
  | .dmat name _ _ _ => 0 ∉ name

instance : DecidablePred wfEntry := fun a => by
  cases a <;> simp only [wfEntry] <;> infer_instance

lemma foldl_upd3_eq {α : Type} (v : Nat → α) (i cnt : Nat) (l : List Nat)
    (A : Nat → Nat → Nat → α) (j' i' c' : Nat) :
    (l.foldl (fun B j => upd3 B j i cnt (v j)) A) j' i' c' =
      if j' ∈ l ∧ i' = i ∧ c' = cnt then v j' else A j' i' c' := by
  induction l generalizing A with
  | nil => simp
  | cons j l ih =>
    simp only [List.foldl_cons, ih, List.mem_cons]
    by_cases h1 : j' ∈ l ∧ i' = i ∧ c' = cnt
    · rw [if_pos h1, if_pos ⟨Or.inr h1.1, h1.2⟩]
    · rw [if_neg h1]
      simp only [upd3]
      by_cases h2 : j' = j ∧ i' = i ∧ c' = cnt
      · rw [if_pos h2, if_pos ⟨Or.inl h2.1, h2.2⟩, h2.1]
      · rw [if_neg h2, if_neg]
        rintro ⟨hj, hrest⟩
        rcases hj with hj | hj
        · exact h2 ⟨hj, hrest⟩
        · exact h1 ⟨hj, hrest⟩

lemma foldl_upd3_rect {α : Type} (w : Nat → Nat → α) (nb cnt : Nat) (l : List Nat)
    (A : Nat → Nat → Nat → α) (j' i' c' : Nat) :
    (l.foldl (fun B i => (List.range nb).foldl (fun B' j => upd3 B' j i cnt (w j i)) B) A)
        j' i' c' =
      if i' ∈ l ∧ j' < nb ∧ c' = cnt then w j' i' else A j' i' c' := by
  induction l generalizing A with
  | nil => simp
  | cons i l ih =>
    simp only [List.foldl_cons, ih, List.mem_cons]
    by_cases h1 : i' ∈ l ∧ j' < nb ∧ c' = cnt
    · rw [if_pos h1, if_pos ⟨Or.inr h1.1, h1.2⟩]
    · rw [if_neg h1, foldl_upd3_eq]
      simp only [List.mem_range]
      by_cases h2 : i' = i ∧ j' < nb ∧ c' = cnt
      · rw [if_pos ⟨h2.2.1, h2.1, h2.2.2⟩, if_pos ⟨Or.inl h2.1, h2.2⟩, h2.1]
      · rw [if_neg, if_neg]
        · rintro ⟨hi, hrest⟩
          rcases hi with hi | hi
          · exact h2 ⟨hi, hrest⟩
          · exact h1 ⟨hi, hrest⟩
        · rintro ⟨hj, hi, hc⟩
          exact h2 ⟨hi, hj, hc⟩

lemma foldl_upd2_eq {α : Type} (v : Nat → α) (cnt : Nat) (l : List Nat)
    (A : Nat → Nat → α) (i' c' : Nat) :
    (l.foldl (fun B i => upd2 B i cnt (v i)) A) i' c' =
      if i' ∈ l ∧ c' = cnt then v i' else A i' c' := by
  induction l generalizing A with
  | nil => simp
  | cons i l ih =>
    simp only [List.foldl_cons, ih, List.mem_cons]
    by_cases h1 : i' ∈ l ∧ c' = cnt
    · rw [if_pos h1, if_pos ⟨Or.inr h1.1, h1.2⟩]
    · rw [if_neg h1]
      simp only [upd2]
      by_cases h2 : i' = i ∧ c' = cnt
      · rw [if_pos h2, if_pos ⟨Or.inl h2.1, h2.2⟩, h2.1]
      · rw [if_neg h2, if_neg]
        rintro ⟨hi, hc⟩
        rcases hi with hi | hi
        · exact h2 ⟨hi, hc⟩
        · exact h1 ⟨hi, hc⟩

lemma echoLoop_apply (e : EnsembleData) (cnt nc : Nat) (A : Nat → Nat → ℚ)
    (i c : Nat) :
    echoLoop e cnt nc A i c =
      if i < nc ∧ c = cnt then (e.hEcho i : ℚ) * 0.01 else A i c := by
  unfold echoLoop
  rw [foldl_upd2_eq (v := fun i => (e.hEcho i : ℚ) * 0.01)]
  simp only [List.mem_range]

lemma velBody_beamv (T : Matrix3) (scale : ℚ) (e : EnsembleData) (cnt : Nat)
    (st : St) (i : Nat) :
    (velBody T scale e cnt st i).beamv =
      if numBeams e ≠ 3 then storeBeamRaw e cnt i st.beamv
      else storeBeamXyz T scale e cnt i st.beamv := by
  unfold velBody
  split <;> rfl

lemma velLoop_beamv (T : Matrix3) (scale : ℚ) (e : EnsembleData) (cnt : Nat) (st : St) :
    (velLoop T scale e cnt st).beamv =
      (List.range (numCells e)).foldl
        (fun A i =>
          if numBeams e ≠ 3 then storeBeamRaw e cnt i A
          else storeBeamXyz T scale e cnt i A)
        st.beamv := by
  unfold velLoop
  generalize List.range (numCells e) = l
  induction l generalizing st with
  | nil => rfl
  | cons i l ih =>
    simp only [List.foldl_cons]
    rw [ih, velBody_beamv]

lemma velLoop_beamv_apply (T : Matrix3) (scale : ℚ) (e : EnsembleData) (cnt : Nat)
    (st : St) (j i : Nat) (hj : j < numBeams e) (hi : i < numCells e) :
    (velLoop T scale e cnt st).beamv j i cnt =
      if numBeams e = 3 then vxyz T scale e i j
      else (e.hVel (j * numCells e + i) : ℚ) := by
  rw [velLoop_beamv]
  by_cases h3 : numBeams e = 3
  · simp only [h3, ne_eq, not_true_eq_false, if_false, ite_false, reduceIte]
    unfold storeBeamXyz
    rw [foldl_upd3_rect (w := fun j i => vxyz T scale e i j)]
    rw [if_pos ⟨List.mem_range.mpr hi, h3 ▸ hj, rfl⟩]
  · simp only [ne_eq, h3, not_false_eq_true, if_true, ite_true, reduceIte]
    unfold storeBeamRaw
    rw [foldl_upd3_rect (w := fun j i => (e.hVel (j * numCells e + i) : ℚ))]
    rw [if_pos ⟨List.mem_range.mpr hi, hj, rfl⟩]

lemma runLoop_append (st : St) (l1 l2 : List Rec) :
    runLoop st (l1 ++ l2) =
      match runLoop st l1 with
      | .error err => .error err
      | .ok st' => runLoop st' l2 := by
  induction l1 generalizing st with
  | nil => rfl
  | cons r l1 ih =>
    simp only [List.cons_append, runLoop]
    cases stepRecord st r with
    | error err => rfl
    | ok st' => exact ih st'

lemma velBody_fields (T : Matrix3) (scale : ℚ) (e : EnsembleData) (cnt : Nat)
    (st : St) (i : Nat) :
    (velBody T scale e cnt st i).count = st.count ∧
    (velBody T scale e cnt st i).max_count = st.max_count ∧
    (velBody T scale e cnt st i).num_beams = st.num_beams ∧
    (velBody T scale e cnt st i).num_cells = st.num_cells ∧
    (velBody T scale e cnt st i).cellSize = st.cellSize ∧
    (velBody T scale e cnt st i).blanking = st.blanking ∧
    (velBody T scale e cnt st i).velAlloc = st.velAlloc ∧
    (velBody T scale e cnt st i).echoAlloc = st.echoAlloc ∧
    (velBody T scale e cnt st i).T = st.T := by
  unfold velBody
  split <;> exact ⟨rfl, rfl, rfl, rfl, rfl, rfl, rfl, rfl, rfl⟩

lemma velLoop_fields (T : Matrix3) (scale : ℚ) (e : EnsembleData) (cnt : Nat) (st : St) :
    (velLoop T scale e cnt st).count = st.count ∧
    (velLoop T scale e cnt st).max_count = st.max_count ∧
    (velLoop T scale e cnt st).num_beams = st.num_beams ∧
    (velLoop T scale e cnt st).num_cells = st.num_cells ∧
    (velLoop T scale e cnt st).cellSize = st.cellSize ∧
    (velLoop T scale e cnt st).blanking = st.blanking ∧
    (velLoop T scale e cnt st).velAlloc = st.velAlloc ∧
    (velLoop T scale e cnt st).echoAlloc = st.echoAlloc ∧
    (velLoop T scale e cnt st).T = st.T := by
  unfold velLoop
  generalize List.range (numCells e) = l
  induction l generalizing st with
  | nil => exact ⟨rfl, rfl, rfl, rfl, rfl, rfl, rfl, rfl, rfl⟩
  | cons i l ih =>
    simp only [List.foldl_cons]
    have h := velBody_fields T scale e cnt st i
    have h2 := ih (velBody T scale e cnt st i)
    exact ⟨h2.1.trans h.1, h2.2.1.trans h.2.1, h2.2.2.1.trans h.2.2.1,
           h2.2.2.2.1.trans h.2.2.2.1, h2.2.2.2.2.1.trans h.2.2.2.2.1,
           h2.2.2.2.2.2.1.trans h.2.2.2.2.2.1, h2.2.2.2.2.2.2.1.trans h.2.2.2.2.2.2.1,
           h2.2.2.2.2.2.2.2.1.trans h.2.2.2.2.2.2.2.1,
           h2.2.2.2.2.2.2.2.2.trans h.2.2.2.2.2.2.2.2⟩

lemma stSized_count (st : St) (id : Nat) (e : EnsembleData) :
    (stSized st id e).count = st.count := by
  unfold stSized; split <;> (try split) <;> rfl

lemma stSized_max_count (st : St) (id : Nat) (e : EnsembleData) :
    (stSized st id e).max_count = st.max_count := by
  unfold stSized; split <;> (try split) <;> rfl

lemma stSized_T (st : St) (id : Nat) (e : EnsembleData) :
    (stSized st id e).T = st.T := by
  unfold stSized; split <;> (try split) <;> rfl

lemma stSized_cellSize (st : St) (id : Nat) (e : EnsembleData) :
    (stSized st id e).cellSize = st.cellSize := by
  unfold stSized; split <;> (try split) <;> rfl

lemma stSized_blanking (st : St) (id : Nat) (e : EnsembleData) :
    (stSized st id e).blanking = st.blanking := by
  unfold stSized; split <;> (try split) <;> rfl

/-- Globals `num_beams` after the sizing stage, as a function of the
pre-record state (the value transform selection sees). -/
def sizedNumBeams (st : St) (id : Nat) (e : EnsembleData) : Nat :=
  if st.count = 0 then (if id = 0x1c then 1 else numBeams e) else st.num_beams

lemma stSized_num_beams (st : St) (id : Nat) (e : EnsembleData) :
    (stSized st id e).num_beams = sizedNumBeams st id e := by
  unfold stSized sizedNumBeams
  split <;> (try split) <;> rfl

/-- The transform matrix the cell loop dereferences for a given record: the
selection result over the pre-record transform local and the post-sizing
beam count (identity standing for the never-assigned case, which the step
function reports as an error instead of using). -/
def usedT (st : St) (id : Nat) (e : EnsembleData) : Matrix3 :=
  (selectT st.T (sizedNumBeams st id e)
    (beamData1 e) (beamData2 e) (beamData3 e) (beamData4 e)).getD beam_ident

/-- C7: the frame reader scans byte-at-a-time for the first sync byte
`0xa5`, discarding each non-matching byte; after a first-sync match, a
second byte other than `0x0a` is discarded together with the first and
scanning resumes with a fresh byte, so the mismatching second byte is
never re-examined as a candidate first sync byte — even when it equals
`0xa5`. -/
theorem c7_resync_drops_second_byte :
    (∀ (b : Nat) (rest : List Nat), b ≠ 0xa5 → scanSync (b :: rest) = scanSync rest) ∧
    (∀ rest : List Nat, scanSync (0xa5 :: 0x0a :: rest) = some rest) ∧
    (∀ (b2 : Nat) (rest : List Nat), b2 ≠ 0x0a →
      scanSync (0xa5 :: b2 :: rest) = scanSync rest) := by
  refine ⟨?_, ?_, ?_⟩
  · intro b rest hb
    rw [scanSync.eq_def]
    simp only [if_pos hb]
  · intro rest
    rw [scanSync.eq_def]
    norm_num
  · intro b2 rest hb2
    rw [scanSync.eq_def]
    norm_num [hb2]

/-- Witness for C7 at concrete bytes: a `0xa5` arriving as the mismatching
second byte is skipped, so the stream `a5 a5 0a` finds no sync. -/
theorem c7_resync_drops_second_byte_witness :
    scanSync [0xa5, 0xa5, 0x0a] = scanSync [0x0a] ∧
    scanSync [0x0a] = scanSync [] ∧
    scanSync [0xa5, 0x0a, 7] = some [7] :=
  ⟨c7_resync_drops_second_byte.2.2 0xa5 [0x0a] (by decide),
   c7_resync_drops_second_byte.1 0x0a [] (by decide),
   c7_resync_drops_second_byte.2.1 [7]⟩

/-- C4: calibration selection is a deterministic function of the ordered
beam-configuration nibble tuple: `(1,2,4,0)` always selects `beam_124`,
`(2,3,4,0)` always selects `beam_234` (whatever the previous transform
or beam count), any other tuple under a 3-beam configuration selects the
identity matrix; re-running selection on the same tuple yields the same
matrix; and under a 4-beam configuration the cell loop applies no
transform — raw beam values pass through. -/
theorem c4_selection_table :
    (∀ (Tp : Option Matrix3) (nb : Nat), selectT Tp nb 1 2 4 0 = some beam_124) ∧
    (∀ (Tp : Option Matrix3) (nb : Nat), selectT Tp nb 2 3 4 0 = some beam_234) ∧
    (∀ (Tp : Option Matrix3) (b1 b2 b3 b4 : Nat),
      ¬(b1 = 1 ∧ b2 = 2 ∧ b3 = 4 ∧ b4 = 0) → ¬(b1 = 2 ∧ b2 = 3 ∧ b3 = 4 ∧ b4 = 0) →
      selectT Tp 3 b1 b2 b3 b4 = some beam_ident) ∧
    (∀ (Tp : Option Matrix3) (nb b1 b2 b3 b4 : Nat),
      selectT (selectT Tp nb b1 b2 b3 b4) nb b1 b2 b3 b4 = selectT Tp nb b1 b2 b3 b4) ∧
    (∀ (T : Matrix3) (scale : ℚ) (e : EnsembleData) (cnt : Nat) (st : St) (j i : Nat),
      numBeams e = 4 → j < 4 → i < numCells e →
      (velLoop T scale e cnt st).beamv j i cnt = (e.hVel (j * numCells e + i) : ℚ)) := by
  refine ⟨?_, ?_, ?_, ?_, ?_⟩
  · intro Tp nb
    simp [selectT]
  · intro Tp nb
    simp [selectT]
  · intro Tp b1 b2 b3 b4 h1 h2
    simp only [selectT, if_neg h1, if_neg h2]
    simp
  · intro Tp nb b1 b2 b3 b4
    unfold selectT
    split_ifs <;> rfl
  · intro T scale e cnt st j i h4 hj hi
    rw [velLoop_beamv_apply T scale e cnt st j i (h4 ▸ hj) hi, if_neg (by omega)]

/-- Concrete 4-beam, 1-cell test ensemble used by claim witnesses:
`cellsField = 4*4096 + 1`, nibble tuple `(1,2,4,0)`, all velocity samples
equal to 7. -/
def eC4 : EnsembleData where
  pressure := 0
  temperature := 0
  heading := 0
  pitch := 0
  roll := 0
  cellsField := 16385
  cellSize := 0
  blanking := 0
  magnHxHyHz := fun _ => 0
  velocityScaling := 0
  powerLevel := 0
  dataSetDesc := 1057
  ampIncluded := false
  corrIncluded := false
  timeVal := 0
  hVel := fun _ => 7
  cAmp := fun _ => 0
  cCorr := fun _ => 0
  hEcho := fun _ => 0

/-- Witness for C4 at concrete inputs. -/
theorem c4_selection_table_witness :
    selectT none 0 1 2 4 0 = some beam_124 ∧
    selectT (some beam_124) 1 2 3 4 0 = some beam_234 ∧
    selectT none 3 9 9 9 9 = some beam_ident ∧
    selectT (selectT none 5 9 9 9 9) 5 9 9 9 9 = selectT none 5 9 9 9 9 ∧
    (velLoop beam_124 1 eC4 0 initSt).beamv 2 0 0 = 7 := by
  refine ⟨c4_selection_table.1 none 0, c4_selection_table.2.1 (some beam_124) 1,
          c4_selection_table.2.2.1 none 9 9 9 9 (by decide) (by decide),
          c4_selection_table.2.2.2.1 none 5 9 9 9 9, ?_⟩
  rw [c4_selection_table.2.2.2.2 beam_124 1 eC4 0 initSt 2 0 (by decide) (by decide)
        (by decide)]
  simp [eC4]

lemma beam_124_ne_234 : beam_124 ≠ beam_234 := by
  simp only [beam_124, beam_234, ne_eq, Matrix3.mk.injEq]
  norm_num

lemma beam_ident_ne_124 : beam_ident ≠ beam_124 := by
  simp only [beam_ident, beam_124, ne_eq, Matrix3.mk.injEq]
  norm_num

lemma beam_ident_ne_234 : beam_ident ≠ beam_234 := by
  simp only [beam_ident, beam_234, ne_eq, Matrix3.mk.injEq]
  norm_num

lemma stepConfig_mismatch (st : St) (M : Matrix3)
    (hA : M ≠ beam_124) (hB : M ≠ beam_234) :
    stepConfig st (some (some M)) = .error .configMismatch := by
  have h1 : ¬matrix_equal M beam_124 = 0 := fun h =>
    hA ((matrix_equal_eq_zero_iff M beam_124).1 h)
  have h2 : ¬matrix_equal M beam_234 = 0 := fun h =>
    hB ((matrix_equal_eq_zero_iff M beam_234).1 h)
  simp only [stepConfig, if_neg h1, if_neg h2]

lemma stepConfig_known (st : St) (M : Matrix3)
    (h : M = beam_124 ∨ M = beam_234) : stepConfig st (some (some M)) = .ok st := by
  rcases h with rfl | rfl
  · simp only [stepConfig, if_pos ((matrix_equal_eq_zero_iff _ _).2 rfl)]
  · have hne : ¬matrix_equal beam_234 beam_124 = 0 := fun h =>
      beam_124_ne_234 ((matrix_equal_eq_zero_iff _ _).1 h).symm
    simp only [stepConfig, if_neg hne,
               if_pos ((matrix_equal_eq_zero_iff _ _).2 rfl)]

lemma stepConfig_ok_eq (st : St) (g : Option (Option Matrix3)) (st' : St)
    (h : stepConfig st g = .ok st') : st' = st := by
  rcases g with _ | (_ | M)
  · exact (Except.ok.inj h).symm
  · exact (Except.ok.inj h).symm
  · replace h :
        (if matrix_equal M beam_124 = 0 then Except.ok st
         else if matrix_equal M beam_234 = 0 then Except.ok st
         else (Except.error RunErr.configMismatch : Except RunErr St)) =
          Except.ok st' := h
    split_ifs at h
    · exact (Except.ok.inj h).symm
    · exact (Except.ok.inj h).symm

/-- C1: a configuration-string record whose well-formed `GETXFAVG` list
parses nine values bit-exactly equal to neither `beam_124` nor `beam_234`
aborts the run at that record; the writer is never invoked and no output
array reaches the container. -/
theorem c1_unknown_config_matrix_aborts (arch : Nat) (pre post : List Rec)
    (M : Matrix3) (st : St)
    (hpre : runLoop initSt pre = .ok st)
    (hA : M ≠ beam_124) (hB : M ≠ beam_234) :
    runProgram arch (pre ++ Rec.config (some (some M)) :: post) =
      .error RunErr.configMismatch := by
  unfold runProgram
  rw [runLoop_append, hpre]
  show (runLoop st (Rec.config (some (some M)) :: post)).map _ = _
  unfold runLoop
  show (match stepConfig st (some (some M)) with
        | .error err => Except.error err
        | .ok st' => runLoop st' post).map _ = _
  rw [stepConfig_mismatch st M hA hB]
  rfl

/-- The spec's negative-test matrix: `M11 = 9.9` and eight arbitrary
other values. -/
def mBad : Matrix3 := ⟨9.9, 1, 2, 3, 4, 5, 6, 7, 8⟩

lemma mBad_ne_124 : mBad ≠ beam_124 := by
  simp only [mBad, beam_124, ne_eq, Matrix3.mk.injEq]
  norm_num

lemma mBad_ne_234 : mBad ≠ beam_234 := by
  simp only [mBad, beam_234, ne_eq, Matrix3.mk.injEq]
  norm_num

/-- Witness for C1: the one-record stream holding the bad matrix aborts
with the configuration-mismatch error and produces no container tokens. -/
theorem c1_unknown_config_matrix_aborts_witness :
    runProgram 0 ([] ++ Rec.config (some (some mBad)) :: []) =
      .error RunErr.configMismatch :=
  c1_unknown_config_matrix_aborts 0 [] [] mBad initSt rfl mBad_ne_124 mBad_ne_234

/-- Amended C2: an externally asserted matrix is validated only against
the two known constants at the moment the configuration record is parsed
(aborting when it matches neither); it is not retained in the decoder
state — a successful configuration step returns the state unchanged — so
no consistency check against any later nibble-based selection exists and
a disagreement between the asserted matrix and a later selection cannot
stop the run. -/
theorem c2_config_assertion_not_retained :
    (∀ (st : St) (M : Matrix3), M = beam_124 ∨ M = beam_234 →
      stepConfig st (some (some M)) = .ok st) ∧
    (∀ (st : St) (g : Option (Option Matrix3)) (st' : St),
      stepConfig st g = .ok st' → st' = st) ∧
    (∀ (st : St) (M : Matrix3), M ≠ beam_124 → M ≠ beam_234 →
      stepConfig st (some (some M)) = .error .configMismatch) := by
  exact ⟨stepConfig_known, stepConfig_ok_eq, stepConfig_mismatch⟩

/-- Witness for the amended C2 at concrete inputs. -/
theorem c2_config_assertion_not_retained_witness :
    stepConfig initSt (some (some beam_124)) = .ok initSt ∧
    stepConfig initSt (some (some beam_ident)) = .error .configMismatch :=
  ⟨c2_config_assertion_not_retained.1 initSt beam_124 (Or.inl rfl),
   c2_config_assertion_not_retained.2.2 initSt beam_ident beam_ident_ne_124
     beam_ident_ne_234⟩

/-- Boolean success test of an `Except` result. -/
def isOkE {ε α : Type} : Except ε α → Bool
  | .ok _ => true
  | .error _ => false

/-- Concrete 3-beam, 1-cell ensemble whose nibble tuple `(2,3,4,0)`
selects `beam_234`. -/
def eVelB : EnsembleData where
  pressure := 0
  temperature := 0
  heading := 0
  pitch := 0
  roll := 0
  cellsField := 12289
  cellSize := 0
  blanking := 0
  magnHxHyHz := fun _ => 0
  velocityScaling := 0
  powerLevel := 0
  dataSetDesc := 1074
  ampIncluded := false
  corrIncluded := false
  timeVal := 0
  hVel := fun _ => 1
  cAmp := fun _ => 0
  cCorr := fun _ => 0
  hEcho := fun _ => 0

/-- Counterexample to C2 as stated: a configuration record asserting
`beam_124` followed by an ensemble whose nibbles select `beam_234` is
processed without any fatal mismatch — the run succeeds and output is
produced. -/
theorem c2_mismatched_selection_not_fatal :
    isOkE (runProgram 0 [Rec.config (some (some beam_124)), Rec.ens 0x16 eVelB]) =
      true := by
  show isOkE
    ((match stepRecord initSt (Rec.config (some (some beam_124))) with
      | .error err => Except.error err
      | .ok st' => runLoop st' [Rec.ens 0x16 eVelB]).map
        (fun st => writeAll 0 (WriteMatlab st))) = true
  rw [show stepRecord initSt (Rec.config (some (some beam_124))) = .ok initSt from
        stepConfig_known initSt beam_124 (Or.inl rfl)]
  rfl

lemma ok_inj {ε α : Type} {a b : α} (h : (Except.ok a : Except ε α) = .ok b) :
    a = b := Except.ok.inj h

lemma selT_after_stages (st : St) (id : Nat) (e : EnsembleData) :
    (stSel (stScal (stSized (stCB st e) id e) e) e).T =
      selectT st.T (sizedNumBeams st id e)
        (beamData1 e) (beamData2 e) (beamData3 e) (beamData4 e) := by
  show selectT (stScal (stSized (stCB st e) id e) e).T
        (stScal (stSized (stCB st e) id e) e).num_beams _ _ _ _ = _
  rw [show (stScal (stSized (stCB st e) id e) e).T =
        (stSized (stCB st e) id e).T from rfl,
      show (stScal (stSized (stCB st e) id e) e).num_beams =
        (stSized (stCB st e) id e).num_beams from rfl,
      stSized_T, stSized_num_beams]
  rfl

lemma count_after_stages (st : St) (id : Nat) (e : EnsembleData) :
    (stSel (stScal (stSized (stCB st e) id e) e) e).count = st.count := by
  rw [show (stSel (stScal (stSized (stCB st e) id e) e) e).count =
        (stSized (stCB st e) id e).count from rfl,
      stSized_count]
  rfl

/-- C3: in every velocity/burst/average ensemble with beam count 3, the
stored velocity for output component `j` at cell `i` is
`Σ_k T[j][k] * (scale * hVel[k*numCells+i])` with
`scale = 10^velocityScaling` from this record's header and `T` the
selected transform; in every such ensemble with beam count ≠ 3 the raw
16-bit beam samples are stored unchanged — neither scaled nor
transformed. -/
theorem c3_velocity_transform (st st' : St) (id : Nat) (e : EnsembleData)
    (hid : id = 0x15 ∨ id = 0x16)
    (hstep : stepRecord st (.ens id e) = .ok st') :
    (numBeams e = 3 → ∀ j, j < 3 → ∀ i, i < numCells e →
      st'.beamv j i st.count =
        ∑ k ∈ Finset.range 3,
          (usedT st id e).el j k * (velScale e * (e.hVel (k * numCells e + i) : ℚ))) ∧
    (numBeams e ≠ 3 → ∀ j, j < numBeams e → ∀ i, i < numCells e →
      st'.beamv j i st.count = (e.hVel (j * numCells e + i) : ℚ)) := by
  have hif : id = 0x1c ∨ id = 0x15 ∨ id = 0x16 := Or.inr hid
  replace hstep : stepEns st id e = .ok st' := by
    have hr : stepRecord st (.ens id e) =
        if id = 0x1c ∨ id = 0x15 ∨ id = 0x16 then stepEns st id e else .ok st := rfl
    rw [hr, if_pos hif] at hstep
    exact hstep
  simp only [stepEns] at hstep
  split at hstep
  · exact absurd hstep (by simp)
  · split at hstep
    · -- empty cell or beam loop: both clauses are vacuous
      rename_i hz
      constructor
      · intro h3 j hj i hi
        rcases hz with hz | hz
        · omega
        · omega
      · intro h3 j hj i hi
        rcases hz with hz | hz
        · omega
        · omega
    · split at hstep
      · exact absurd hstep (by simp)
      · split at hstep
        · exact absurd hstep (by simp)
        · split at hstep
          · exact absurd hstep (by simp)
          · split at hstep
            · exact absurd hstep (by simp)
            · obtain rfl := ok_inj hstep
              dsimp only
              rw [count_after_stages]
              constructor
              · intro h3 j hj i hi
                rw [velLoop_beamv_apply _ _ _ _ _ j i (h3 ▸ hj) hi, if_pos h3]
                unfold vxyz usedT
                rw [h3, selT_after_stages]
              · intro h3 j hj i hi
                rw [velLoop_beamv_apply _ _ _ _ _ j i hj hi, if_neg h3]

/-- Concrete 3-beam, 1-cell ensemble with nibble tuple `(1,2,4,0)`,
scaling exponent 0 and all raw velocities 10 (the worked example of the
spec's testable properties). -/
def eC3 : EnsembleData where
  pressure := 0
  temperature := 0
  heading := 0
  pitch := 0
  roll := 0
  cellsField := 12289
  cellSize := 0
  blanking := 0
  magnHxHyHz := fun _ => 0
  velocityScaling := 0
  powerLevel := 0
  dataSetDesc := 1057
  ampIncluded := false
  corrIncluded := false
  timeVal := 0
  hVel := fun _ => 10
  cAmp := fun _ => 0
  cCorr := fun _ => 0
  hEcho := fun _ => 0

/-- Witness for C3: the stored `velX` value for the example ensemble is
`1.3564*10 - 0.5056*10 - 0.5056*10 = 3.452`. -/
theorem c3_velocity_transform_witness :
    (stepRecord initSt (Rec.ens 0x16 eC3)).map (fun s => s.beamv 0 0 0) =
      Except.ok (3452 / 1000 : ℚ) := by
  obtain ⟨s, hs⟩ : ∃ s, stepRecord initSt (Rec.ens 0x16 eC3) = Except.ok s := ⟨_, rfl⟩
  rw [hs]
  show Except.ok (s.beamv 0 0 0) = _
  have h := (c3_velocity_transform initSt s 0x16 eC3 (Or.inr rfl) hs).1 (by decide)
    0 (by decide) 0 (by decide)
  rw [show initSt.count = 0 from rfl] at h
  rw [h]
  simp only [Except.ok.injEq]
  norm_num [Finset.sum_range_succ, usedT, sizedNumBeams, selectT, beamData1, beamData2,
            beamData3, beamData4, eC3, velScale, beam_124, Matrix3.el, numCells, initSt]

lemma cellSize_after_stages (st : St) (id : Nat) (e : EnsembleData) :
    (stSel (stScal (stSized (stCB st e) id e) e) e).cellSize = (e.cellSize : ℚ) / 1000 := by
  rw [show (stSel (stScal (stSized (stCB st e) id e) e) e).cellSize =
        (stSized (stCB st e) id e).cellSize from rfl,
      stSized_cellSize]
  rfl

lemma blanking_after_stages (st : St) (id : Nat) (e : EnsembleData) :
    (stSel (stScal (stSized (stCB st e) id e) e) e).blanking = (e.blanking : ℚ) / 100 := by
  rw [show (stSel (stScal (stSized (stCB st e) id e) e) e).blanking =
        (stSized (stCB st e) id e).blanking from rfl,
      stSized_blanking]
  rfl

lemma stepEns_ok_cellSize (st st' : St) (id : Nat) (e : EnsembleData)
    (h : stepEns st id e = .ok st') :
    st'.cellSize = (e.cellSize : ℚ) / 1000 ∧ st'.blanking = (e.blanking : ℚ) / 100 := by
  simp only [stepEns] at h
  split at h
  · exact absurd h (by simp)
  · split at h
    · split at h
      · obtain rfl := ok_inj h
        exact ⟨cellSize_after_stages st id e, blanking_after_stages st id e⟩
      · split at h
        · exact absurd h (by simp)
        · split at h
          · exact absurd h (by simp)
          · split at h
            · exact absurd h (by simp)
            · split at h
              · exact absurd h (by simp)
              · obtain rfl := ok_inj h
                constructor
                · rw [show (∀ x : St, ∀ T sc cnt,
                        ({ velLoop T sc e cnt x with count := cnt + 1 } : St).cellSize =
                          (velLoop T sc e cnt x).cellSize) from fun _ _ _ _ => rfl]
                  rw [(velLoop_fields _ _ _ _ _).2.2.2.2.1]
                  exact cellSize_after_stages st id e
                · rw [show (∀ x : St, ∀ T sc cnt,
                        ({ velLoop T sc e cnt x with count := cnt + 1 } : St).blanking =
                          (velLoop T sc e cnt x).blanking) from fun _ _ _ _ => rfl]
                  rw [(velLoop_fields _ _ _ _ _).2.2.2.2.2.1]
                  exact blanking_after_stages st id e
    · split at h
      · exact absurd h (by simp)
      · obtain rfl := ok_inj h
        exact ⟨cellSize_after_stages st id e, blanking_after_stages st id e⟩

/-- The header of the last decoded ensemble record of a stream (the last
record whose id the decode loop treats as an ensemble). -/
def lastEnsHdr : List Rec → Option EnsembleData
  | [] => none
  | r :: rest =>
    match lastEnsHdr rest with
    | some e => some e
    | none =>
      match r with
      | .ens id e => if id = 0x1c ∨ id = 0x15 ∨ id = 0x16 then some e else none
      | _ => none

lemma lastEnsHdr_cons (r : Rec) (rest : List Rec) :
    lastEnsHdr (r :: rest) =
      match lastEnsHdr rest with
      | some e => some e
      | none =>
        match r with
        | .ens id e => if id = 0x1c ∨ id = 0x15 ∨ id = 0x16 then some e else none
        | _ => none := rfl

lemma runLoop_cellSize (recs : List Rec) (st st' : St)
    (h : runLoop st recs = .ok st') :
    st'.cellSize =
      (match lastEnsHdr recs with
       | some e => (e.cellSize : ℚ) / 1000
       | none => st.cellSize) ∧
    st'.blanking =
      (match lastEnsHdr recs with
       | some e => (e.blanking : ℚ) / 100
       | none => st.blanking) := by
  induction recs generalizing st with
  | nil =>
    obtain rfl := (ok_inj h).symm
    exact ⟨rfl, rfl⟩
  | cons r rest ih =>
    replace h : (match stepRecord st r with
      | .error err => Except.error err
      | .ok st1 => runLoop st1 rest) = .ok st' := h
    cases hr : stepRecord st r with
    | error err => rw [hr] at h; exact absurd h (by simp)
    | ok st1 =>
      rw [hr] at h
      have hih := ih st1 h
      rw [lastEnsHdr_cons]
      cases hlast : lastEnsHdr rest with
      | some e =>
        rw [hlast] at hih
        exact hih
      | none =>
        rw [hlast] at hih
        cases r with
        | config g =>
          obtain rfl := stepConfig_ok_eq st g st1 hr
          exact hih
        | other =>
          obtain rfl := (ok_inj hr).symm
          exact hih
        | ens id e =>
          by_cases hid : id = 0x1c ∨ id = 0x15 ∨ id = 0x16
          · replace hr : stepEns st id e = .ok st1 := by
              have hrr : stepRecord st (.ens id e) =
                  if id = 0x1c ∨ id = 0x15 ∨ id = 0x16 then stepEns st id e
                  else .ok st := rfl
              rw [hrr, if_pos hid] at hr
              exact hr
            have hcb := stepEns_ok_cellSize st st1 id e hr
            simp only [if_pos hid]
            exact ⟨hih.1.trans hcb.1, hih.2.trans hcb.2⟩
          · replace hr : (Except.ok st : Except RunErr St) = .ok st1 := by
              have hrr : stepRecord st (.ens id e) =
                  if id = 0x1c ∨ id = 0x15 ∨ id = 0x16 then stepEns st id e
                  else .ok st := rfl
              rw [hrr, if_neg hid] at hr
              exact hr
            obtain rfl := ok_inj hr
            simp only [if_neg hid]
            exact hih

/-- C9: every decoded ensemble overwrites the single stored
cellSize/blanking pair, so the scalar constants drained into the
container equal the values of the LAST decoded ensemble of the run
(`cellSize/1000`, `blanking/100`); earlier mid-run values never reach
the output. -/
theorem c9_scalar_constants_from_last_ensemble (recs : List Rec) (st : St)
    (e : EnsembleData)
    (h : runLoop initSt recs = .ok st)
    (hlast : lastEnsHdr recs = some e) :
    st.cellSize = (e.cellSize : ℚ) / 1000 ∧
    st.blanking = (e.blanking : ℚ) / 100 ∧
    (∀ (st₀ st₁ : St) (id' : Nat) (e' : EnsembleData),
      id' = 0x1c ∨ id' = 0x15 ∨ id' = 0x16 →
      stepRecord st₀ (.ens id' e') = .ok st₁ →
      st₁.cellSize = (e'.cellSize : ℚ) / 1000 ∧
      st₁.blanking = (e'.blanking : ℚ) / 100) ∧
    NamedArray.dvec (nameBytes "cellSize") [st.cellSize] ∈ WriteMatlab st ∧
    NamedArray.dvec (nameBytes "blanking") [st.blanking] ∈ WriteMatlab st := by
  have hcb := runLoop_cellSize recs initSt st h
  rw [hlast] at hcb
  refine ⟨hcb.1, hcb.2, ?_, ?_, ?_⟩
  · intro st₀ st₁ id' e' hid' hstep'
    replace hstep' : stepEns st₀ id' e' = .ok st₁ := by
      have hrr : stepRecord st₀ (.ens id' e') =
          if id' = 0x1c ∨ id' = 0x15 ∨ id' = 0x16 then stepEns st₀ id' e'
          else .ok st₀ := rfl
      rw [hrr, if_pos hid'] at hstep'
      exact hstep'
    exact stepEns_ok_cellSize st₀ st₁ id' e' hstep'
  · exact List.mem_append_right _ (by simp)
  · exact List.mem_append_right _ (by simp)

/-- Second test ensemble for C9: same shape as `eC3` but different
cellSize/blanking raw values. -/
def eC9 : EnsembleData :=
  { eC3 with cellSize := 2000, blanking := 300 }

/-- Witness for C9: after two ensembles with different header values the
stored pair is the second record's `2000/1000 = 2` and `300/100 = 3`. -/
theorem c9_scalar_constants_from_last_ensemble_witness :
    (runLoop initSt [Rec.ens 0x15 eC3, Rec.ens 0x16 eC9]).map
        (fun s => (s.cellSize, s.blanking)) = Except.ok ((2 : ℚ), (3 : ℚ)) := by
  obtain ⟨s, hs⟩ :
      ∃ s, runLoop initSt [Rec.ens 0x15 eC3, Rec.ens 0x16 eC9] = Except.ok s :=
    ⟨_, rfl⟩
  rw [hs]
  show Except.ok (s.cellSize, s.blanking) = _
  have h := c9_scalar_constants_from_last_ensemble
    [Rec.ens 0x15 eC3, Rec.ens 0x16 eC9] s eC9 hs rfl
  rw [h.1, h.2.1]
  norm_num [eC9, eC3]

lemma stSized_num_cells_pos (st : St) (id : Nat) (e : EnsembleData)
    (h : ¬st.count = 0) : (stSized st id e).num_cells = st.num_cells := by
  unfold stSized
  rw [if_neg h]

lemma echo_entry_mem (s : St) (hs : s.echoAlloc = true) :
    NamedArray.dmat (nameBytes "echo") s.num_cells s.count s.echoArr ∈ WriteMatlab s := by
  unfold WriteMatlab
  rw [if_pos hs]
  exact List.mem_append_left _ (List.mem_cons_self _ _)

/-- C10: for an echo ensemble (id `0x1c`) the accumulated intensity at
every cell index below the cell count fixed at first sizing is the raw
unsigned 16-bit sample times `0.01`, stored as a double; the written
`echo` matrix is the array of these scaled intensities, not the raw
values. -/
theorem c10_echo_intensity_scaled (st st' : St) (e : EnsembleData)
    (hstep : stepRecord st (.ens 0x1c e) = .ok st') :
    (∀ i, i < st'.num_cells → st'.echoArr i st.count = (e.hEcho i : ℚ) * 0.01) ∧
    (¬st.count = 0 → st'.num_cells = st.num_cells) ∧
    NamedArray.dmat (nameBytes "echo") st'.num_cells st'.count st'.echoArr ∈
      WriteMatlab st' := by
  replace hstep : stepEns st 0x1c e = .ok st' := by
    have hrr : stepRecord st (.ens 0x1c e) =
        if (0x1c : Nat) = 0x1c ∨ (0x1c : Nat) = 0x15 ∨ (0x1c : Nat) = 0x16 then
          stepEns st 0x1c e
        else .ok st := rfl
    rw [hrr, if_pos (Or.inl rfl)] at hstep
    exact hstep
  simp only [stepEns] at hstep
  split at hstep
  · exact absurd hstep (by simp)
  · split at hstep
    · rename_i hid15
      exact absurd hid15 (by decide)
    · split at hstep
      · exact absurd hstep (by simp)
      · obtain rfl := ok_inj hstep
        rename_i hEAn
        simp only [Bool.not_eq_false] at hEAn
        refine ⟨?_, ?_, ?_⟩
        · intro i hi
          show echoLoop e (stSel (stScal (stSized (stCB st e) 0x1c e) e) e).count
                (stSel (stScal (stSized (stCB st e) 0x1c e) e) e).num_cells
                (stSel (stScal (stSized (stCB st e) 0x1c e) e) e).echoArr i st.count =
              (e.hEcho i : ℚ) * 0.01
          rw [echoLoop_apply, count_after_stages st 0x1c e, if_pos ⟨hi, rfl⟩]
        · intro h0
          exact (stSized_num_cells_pos (stCB st e) 0x1c e h0).trans rfl
        · exact echo_entry_mem _ hEAn

/-- Concrete two-cell echo ensemble with raw intensities 100 and 200. -/
def eEcho : EnsembleData where
  pressure := 0
  temperature := 0
  heading := 0
  pitch := 0
  roll := 0
  cellsField := 2
  cellSize := 0
  blanking := 0
  magnHxHyHz := fun _ => 0
  velocityScaling := 0
  powerLevel := 0
  dataSetDesc := 0
  ampIncluded := false
  corrIncluded := false
  timeVal := 0
  hVel := fun _ => 0
  cAmp := fun _ => 0
  cCorr := fun _ => 0
  hEcho := fun i => 100 * (i + 1)

/-- Witness for C10: raw sample 100 is stored as `1.0`. -/
theorem c10_echo_intensity_scaled_witness :
    (stepRecord initSt (Rec.ens 0x1c eEcho)).map (fun s => s.echoArr 0 0) =
      Except.ok (1 : ℚ) := by
  obtain ⟨s, hs⟩ : ∃ s, stepRecord initSt (Rec.ens 0x1c eEcho) = Except.ok s :=
    ⟨_, rfl⟩
  rw [hs]
  show Except.ok (s.echoArr 0 0) = _
  have hnc : s.num_cells = 2 := by
    have h2 : (stepRecord initSt (Rec.ens 0x1c eEcho)).map (fun x => x.num_cells) =
        Except.ok 2 := rfl
    rw [hs] at h2
    exact Except.ok.inj h2
  have h := (c10_echo_intensity_scaled initSt s eEcho hs).1 0 (by omega)
  rw [show initSt.count = 0 from rfl] at h
  rw [h]
  norm_num [eEcho]

/-- C5: mixing ensemble families after sizing.  The code performs no
family check at all: after an echo ensemble sizes the storage, a velocity
ensemble writes through the never-allocated (NULL) velocity arrays, and
vice versa — an undefined-behaviour out-of-bounds write, not a reported
`InconsistentEnsembleFamily` decode error. -/
theorem c5_family_mix_is_oob_write :
    runProgram 0 [Rec.ens 0x1c eEcho, Rec.ens 0x15 eC3] =
      .error RunErr.oobWrite ∧
    runProgram 0 [Rec.ens 0x15 eC3, Rec.ens 0x1c eEcho] =
      .error RunErr.oobWrite := by
  constructor
  · rfl
  · rfl

set_option maxRecDepth 100000 in
/-- C6: column capacity.  The reference code pre-sizes every channel to
`max_count = 1000` columns and keeps appending without any capacity
check: a run of exactly 1000 ensembles stays in bounds, and the 1001st
ensemble stores its scalar columns at index 1000 — past every
allocation, an undefined-behaviour out-of-bounds write rather than a
`CapacityExceeded` failure. -/
theorem c6_capacity_overflow_write :
    isOkE (runLoop initSt (List.replicate 1000 (Rec.ens 0x15 eC4))) = true ∧
    runLoop initSt (List.replicate 1001 (Rec.ens 0x15 eC4)) =
      .error RunErr.oobWrite := by
  constructor
  · rfl
  · rfl

lemma readChars_append (bs : List Nat) (rest : List Tok) :
    readChars bs.length (bs.map Tok.ch ++ rest) = some (bs, rest) := by
  induction bs with
  | nil => rfl
  | cons b bs ih => simp [readChars, ih]

lemma readF64s_append (xs : List ℚ) (rest : List Tok) :
    readF64s xs.length (xs.map Tok.f64 ++ rest) = some (xs, rest) := by
  induction xs with
  | nil => rfl
  | cons x xs ih => simp [readF64s, ih]

lemma readI16s_append (xs : List Int) (rest : List Tok) :
    readI16s xs.length (xs.map Tok.i16 ++ rest) = some (xs, rest) := by
  induction xs with
  | nil => rfl
  | cons x xs ih => simp [readI16s, ih]

lemma takeWhile_name (name : List Nat) (h : 0 ∉ name) :
    (name ++ [0]).takeWhile (fun b => b ≠ 0) = name := by
  induction name with
  | nil => simp [List.takeWhile]
  | cons a name ih =>
    have ha : a ≠ 0 := fun hz => h (hz ▸ List.mem_cons_self a name)
    simp only [List.cons_append, List.takeWhile_cons]
    rw [if_pos (by simpa using ha)]
    rw [ih (fun hm => h (List.mem_cons_of_mem a hm))]

lemma colMajor_length {α : Type} (nr nc : Nat) (a : Nat → Nat → α) :
    (colMajor nr nc a).length = nc * nr := by
  unfold colMajor
  induction nc with
  | zero => simp
  | succ m ih =>
    rw [List.range_succ]
    simp [ih, Nat.succ_mul]

lemma colMajor_get (nr nc : Nat) {α : Type} (a : Nat → Nat → α) (j i : Nat)
    (hj : j < nr) (hi : i < nc) :
    (colMajor nr nc a).get? (i * nr + j) = some (a j i) := by
  unfold colMajor
  induction nc with
  | zero => omega
  | succ m ih =>
    rw [List.range_succ, List.flatMap_append]
    by_cases him : i < m
    · rw [List.get?_append]
      · exact ih him
      · have hlen : ((List.range m).flatMap
            fun i => List.map (fun j => a j i) (List.range nr)).length = m * nr :=
          colMajor_length nr m a
        rw [hlen]
        calc i * nr + j < i * nr + nr := by omega
          _ = (i + 1) * nr := by ring
          _ ≤ m * nr := Nat.mul_le_mul_right nr (by omega)
    · have hieq : i = m := by omega
      subst hieq
      have hlen : ((List.range i).flatMap
          fun i => List.map (fun j => a j i) (List.range nr)).length = i * nr :=
        colMajor_length nr i a
      rw [List.get?_append_right]
      · rw [hlen]
        simp only [List.flatMap_cons, List.flatMap_nil, List.append_nil]
        rw [show i * nr + j - i * nr = j from by omega]
        rw [List.get?_map, List.get?_range hj]
        rfl
      · rw [hlen]
        omega

lemma readChars_name (name : List Nat) (rest : List Tok) :
    readChars (name.length + 1) ((name ++ [0]).map Tok.ch ++ rest) =
      some (name ++ [0], rest) := by
  have h := readChars_append (name ++ [0]) rest
  simpa using h

lemma readF64s_colMajor (nr nc : Nat) (f : Nat → Nat → ℚ) (rest : List Tok) :
    readF64s (nr * nc) ((colMajor nr nc f).map Tok.f64 ++ rest) =
      some (colMajor nr nc f, rest) := by
  have h := readF64s_append (colMajor nr nc f) rest
  rw [colMajor_length] at h
  rw [show nr * nc = nc * nr from Nat.mul_comm nr nc]
  exact h

lemma readI16s_colMajor (nr nc : Nat) (f : Nat → Nat → Int) (rest : List Tok) :
    readI16s (nr * nc) ((colMajor nr nc f).map Tok.i16 ++ rest) =
      some (colMajor nr nc f, rest) := by
  have h := readI16s_append (colMajor nr nc f) rest
  rw [colMajor_length] at h
  rw [show nr * nc = nc * nr from Nat.mul_comm nr nc]
  exact h

lemma hdrType_mod10 (arch p : Nat) (_hp : p < 10) :
    ¬(((arch * 1000 + 0 * 100 + p * 10 + 0 * 1 : Nat) : Int) % 10 ≠ 0) := by
  push_cast
  omega

lemma hdrType_digit (arch p : Nat) (hp : p < 10) :
    ((arch * 1000 + 0 * 100 + p * 10 + 0 * 1 : Nat) : Int) / 10 % 10 = (p : Int) := by
  push_cast
  omega

lemma hdrType_arch (arch p : Nat) (hp : p < 10) :
    ((arch * 1000 + 0 * 100 + p * 10 + 0 * 1 : Nat) : Int) / 1000 = (arch : Int) := by
  push_cast
  omega

lemma readEntry_write (arch : Nat) (a : NamedArray) (rest : List Tok)
    (h : wfEntry a) :
    readEntry (writeEntry arch a ++ rest) = some (parsedOf arch a, rest) := by
  cases a with
  | dvec name xs =>
    have hsh : writeEntry arch (NamedArray.dvec name xs) ++ rest =
        Tok.hdr ⟨((arch * 1000 + 0 * 100 + 0 * 10 + 0 * 1 : Nat) : Int),
                 (xs.length : Int), (1 : Int), 0, ((name.length + 1 : Nat) : Int)⟩ ::
          ((name ++ [0]).map Tok.ch ++ (xs.map Tok.f64 ++ rest)) := by
      simp [writeEntry, MatlabDoubleVector, List.append_assoc]
    have him : ¬((0 : Int) ≠ 0) := by simp
    have hmod : ¬(((arch * 1000 + 0 * 100 + 0 * 10 + 0 * 1 : Nat) : Int) % 10 ≠ 0) :=
      hdrType_mod10 arch 0 (by omega)
    have hdims : ¬((xs.length : Int) < 0 ∨ (1 : Int) < 0 ∨
        ((name.length + 1 : Nat) : Int) ≤ 0) := by
      push_neg
      exact ⟨by positivity, by positivity, by positivity⟩
    have hnl : ((name.length + 1 : Nat) : Int).toNat = name.length + 1 := by simp
    have hlast : ¬((name ++ [0]).getLast? ≠ some 0) := by simp
    have hdg := hdrType_digit arch 0 (by omega)
    have hkind : kindOfDigit ((0 : Nat) : Int) = some ElemKind.f64 := rfl
    have hcount : ((xs.length : Nat) : Int).toNat * ((1 : Int)).toNat = xs.length := by simp
    rw [hsh]
    dsimp only [readEntry]
    rw [if_neg him, if_neg hmod, if_neg hdims, hnl, readChars_name]
    dsimp only
    rw [if_neg hlast, hdg, hkind]
    dsimp only
    rw [hcount, readF64s_append]
    dsimp only
    rw [takeWhile_name name h, hdrType_arch arch 0 (by omega)]
    simp [parsedOf]
  | svec name xs unsign =>
    obtain ⟨hname, hu⟩ := h
    interval_cases unsign
    ·
      have hsh : writeEntry arch (NamedArray.svec name xs 0) ++ rest =
          Tok.hdr ⟨((arch * 1000 + 0 * 100 + 3 * 10 + 0 * 1 : Nat) : Int),
                   (xs.length : Int), (1 : Int), 0, ((name.length + 1 : Nat) : Int)⟩ ::
            ((name ++ [0]).map Tok.ch ++ (xs.map Tok.i16 ++ rest)) := by
        simp [writeEntry, MatlabVector, List.append_assoc]
      have him : ¬((0 : Int) ≠ 0) := by simp
      have hmod : ¬(((arch * 1000 + 0 * 100 + 3 * 10 + 0 * 1 : Nat) : Int) % 10 ≠ 0) :=
        hdrType_mod10 arch 3 (by omega)
      have hdims : ¬((xs.length : Int) < 0 ∨ (1 : Int) < 0 ∨
          ((name.length + 1 : Nat) : Int) ≤ 0) := by
        push_neg
        exact ⟨by positivity, by positivity, by positivity⟩
      have hnl : ((name.length + 1 : Nat) : Int).toNat = name.length + 1 := by simp
      have hlast : ¬((name ++ [0]).getLast? ≠ some 0) := by simp
      have hdg := hdrType_digit arch 3 (by omega)
      have hkind : kindOfDigit ((3 : Nat) : Int) = some ElemKind.i16 := rfl
      have hcount : ((xs.length : Nat) : Int).toNat * ((1 : Int)).toNat = xs.length := by simp
      rw [hsh]
      dsimp only [readEntry]
      rw [if_neg him, if_neg hmod, if_neg hdims, hnl, readChars_name]
      dsimp only
      rw [if_neg hlast, hdg, hkind]
      dsimp only
      rw [hcount, readI16s_append]
      dsimp only
      rw [takeWhile_name name hname, hdrType_arch arch 3 (by omega)]
      simp [parsedOf]
    ·
      have hsh : writeEntry arch (NamedArray.svec name xs 1) ++ rest =
          Tok.hdr ⟨((arch * 1000 + 0 * 100 + 4 * 10 + 0 * 1 : Nat) : Int),
                   (xs.length : Int), (1 : Int), 0, ((name.length + 1 : Nat) : Int)⟩ ::
            ((name ++ [0]).map Tok.ch ++ (xs.map Tok.i16 ++ rest)) := by
        simp [writeEntry, MatlabVector, List.append_assoc]
      have him : ¬((0 : Int) ≠ 0) := by simp
      have hmod : ¬(((arch * 1000 + 0 * 100 + 4 * 10 + 0 * 1 : Nat) : Int) % 10 ≠ 0) :=
        hdrType_mod10 arch 4 (by omega)
      have hdims : ¬((xs.length : Int) < 0 ∨ (1 : Int) < 0 ∨
          ((name.length + 1 : Nat) : Int) ≤ 0) := by
        push_neg
        exact ⟨by positivity, by positivity, by positivity⟩
      have hnl : ((name.length + 1 : Nat) : Int).toNat = name.length + 1 := by simp
      have hlast : ¬((name ++ [0]).getLast? ≠ some 0) := by simp
      have hdg := hdrType_digit arch 4 (by omega)
      have hkind : kindOfDigit ((4 : Nat) : Int) = some ElemKind.u16 := rfl
      have hcount : ((xs.length : Nat) : Int).toNat * ((1 : Int)).toNat = xs.length := by simp
      rw [hsh]
      dsimp only [readEntry]
      rw [if_neg him, if_neg hmod, if_neg hdims, hnl, readChars_name]
      dsimp only
      rw [if_neg hlast, hdg, hkind]
      dsimp only
      rw [hcount, readI16s_append]
      dsimp only
      rw [takeWhile_name name hname, hdrType_arch arch 4 (by omega)]
      simp [parsedOf]
  | smat name nr nc f =>
    have hsh : writeEntry arch (NamedArray.smat name nr nc f) ++ rest =
        Tok.hdr ⟨((arch * 1000 + 0 * 100 + 3 * 10 + 0 * 1 : Nat) : Int),
                 (nr : Int), (nc : Int), 0, ((name.length + 1 : Nat) : Int)⟩ ::
          ((name ++ [0]).map Tok.ch ++ ((colMajor nr nc f).map Tok.i16 ++ rest)) := by
      simp [writeEntry, MatlabMatrix, List.append_assoc]
    have him : ¬((0 : Int) ≠ 0) := by simp
    have hmod : ¬(((arch * 1000 + 0 * 100 + 3 * 10 + 0 * 1 : Nat) : Int) % 10 ≠ 0) :=
      hdrType_mod10 arch 3 (by omega)
    have hdims : ¬((nr : Int) < 0 ∨ (nc : Int) < 0 ∨
        ((name.length + 1 : Nat) : Int) ≤ 0) := by
      push_neg
      exact ⟨by positivity, by positivity, by positivity⟩
    have hnl : ((name.length + 1 : Nat) : Int).toNat = name.length + 1 := by simp
    have hlast : ¬((name ++ [0]).getLast? ≠ some 0) := by simp
    have hdg := hdrType_digit arch 3 (by omega)
    have hkind : kindOfDigit ((3 : Nat) : Int) = some ElemKind.i16 := rfl
    have hcount : ((nr : Nat) : Int).toNat * ((nc : Nat) : Int).toNat = nr * nc := by simp
    rw [hsh]
    dsimp only [readEntry]
    rw [if_neg him, if_neg hmod, if_neg hdims, hnl, readChars_name]
    dsimp only
    rw [if_neg hlast, hdg, hkind]
    dsimp only
    rw [hcount, readI16s_colMajor]
    dsimp only
    rw [takeWhile_name name h, hdrType_arch arch 3 (by omega)]
    simp [parsedOf]
  | dmat name nr nc f =>
    have hsh : writeEntry arch (NamedArray.dmat name nr nc f) ++ rest =
        Tok.hdr ⟨((arch * 1000 + 0 * 100 + 0 * 10 + 0 * 1 : Nat) : Int),
                 (nr : Int), (nc : Int), 0, ((name.length + 1 : Nat) : Int)⟩ ::
          ((name ++ [0]).map Tok.ch ++ ((colMajor nr nc f).map Tok.f64 ++ rest)) := by
      simp [writeEntry, MatlabDoubleMatrix, List.append_assoc]
    have him : ¬((0 : Int) ≠ 0) := by simp
    have hmod : ¬(((arch * 1000 + 0 * 100 + 0 * 10 + 0 * 1 : Nat) : Int) % 10 ≠ 0) :=
      hdrType_mod10 arch 0 (by omega)
    have hdims : ¬((nr : Int) < 0 ∨ (nc : Int) < 0 ∨
        ((name.length + 1 : Nat) : Int) ≤ 0) := by
      push_neg
      exact ⟨by positivity, by positivity, by positivity⟩
    have hnl : ((name.length + 1 : Nat) : Int).toNat = name.length + 1 := by simp
    have hlast : ¬((name ++ [0]).getLast? ≠ some 0) := by simp
    have hdg := hdrType_digit arch 0 (by omega)
    have hkind : kindOfDigit ((0 : Nat) : Int) = some ElemKind.f64 := rfl
    have hcount : ((nr : Nat) : Int).toNat * ((nc : Nat) : Int).toNat = nr * nc := by simp
    rw [hsh]
    dsimp only [readEntry]
    rw [if_neg him, if_neg hmod, if_neg hdims, hnl, readChars_name]
    dsimp only
    rw [if_neg hlast, hdg, hkind]
    dsimp only
    rw [hcount, readF64s_colMajor]
    dsimp only
    rw [takeWhile_name name h, hdrType_arch arch 0 (by omega)]
    simp [parsedOf]

lemma writeEntry_cons (arch : Nat) (a : NamedArray) :
    ∃ H tl, writeEntry arch a = Tok.hdr H :: tl := by
  cases a with
  | dvec name xs => exact ⟨_, _, rfl⟩
  | svec name xs unsign => exact ⟨_, _, rfl⟩
  | smat name nr nc f => exact ⟨_, _, rfl⟩
  | dmat name nr nc f => exact ⟨_, _, rfl⟩

lemma writeAll_cons (arch : Nat) (a : NamedArray) (l : List NamedArray) :
    writeAll arch (a :: l) = writeEntry arch a ++ writeAll arch l := by
  simp [writeAll]

lemma length_le_writeAll (arch : Nat) (l : List NamedArray) :
    l.length ≤ (writeAll arch l).length := by
  induction l with
  | nil => simp [writeAll]
  | cons a l ih =>
    rw [writeAll_cons, List.length_append]
    obtain ⟨H, tl, hW⟩ := writeEntry_cons arch a
    rw [hW]
    simp only [List.length_cons]
    omega

lemma readMany_nil (fuel : Nat) : readMany fuel [] = some [] := by
  cases fuel <;> rfl

lemma readMany_writeAll (arch : Nat) (l : List NamedArray) (fuel : Nat)
    (hwf : ∀ a ∈ l, wfEntry a) (hfuel : l.length ≤ fuel) :
    readMany fuel (writeAll arch l) = some (l.map (parsedOf arch)) := by
  induction l generalizing fuel with
  | nil => rw [show writeAll arch [] = [] from rfl, readMany_nil]; rfl
  | cons a l ih =>
    cases fuel with
    | zero => simp at hfuel
    | succ fuel =>
      rw [writeAll_cons]
      have hre := readEntry_write arch a (writeAll arch l) (hwf a (List.mem_cons_self a l))
      obtain ⟨H, tl, hW⟩ := writeEntry_cons arch a
      rw [hW, List.cons_append]
      show (match readEntry (Tok.hdr H :: (tl ++ writeAll arch l)) with
            | none => none
            | some (p, rest) => (readMany fuel rest).map (fun ps => p :: ps)) = _
      rw [← List.cons_append, ← hW, hre]
      show Option.map (fun ps => parsedOf arch a :: ps)
            (readMany fuel (writeAll arch l)) = _
      rw [ih fuel (fun b hb => hwf b (List.mem_cons_of_mem a hb))
            (Nat.le_of_succ_le_succ hfuel)]
      rfl

/-- C8: the writer emits each array as a fixed header (type tag encoding
element kind and host byte order, row count, column count, imaginary
flag 0, name length `strlen+1`), then the NUL-terminated name, then the
elements in column-major order, a 1-D vector as `ncols = 1`; re-reading
the container with a reference reader for the format recovers identical
names, dimensions, element kinds and values for every array, and the
column-major payload holds element `(j,i)` at offset `i*rows + j`. -/
theorem c8_container_roundtrip (arch : Nat) (l : List NamedArray)
    (hwf : ∀ a ∈ l, wfEntry a) :
    readAll (writeAll arch l) = some (l.map (parsedOf arch)) ∧
    (∀ (nr nc : Nat) (f : Nat → Nat → ℚ) (j i : Nat), j < nr → i < nc →
      (colMajor nr nc f).get? (i * nr + j) = some (f j i)) ∧
    (∀ (nr nc : Nat) (f : Nat → Nat → Int) (j i : Nat), j < nr → i < nc →
      (colMajor nr nc f).get? (i * nr + j) = some (f j i)) := by
  refine ⟨?_, ?_, ?_⟩
  · exact readMany_writeAll arch l (writeAll arch l).length hwf
      (length_le_writeAll arch l)
  · intro nr nc f j i hj hi
    exact colMajor_get nr nc f j i hj hi
  · intro nr nc f j i hj hi
    exact colMajor_get nr nc f j i hj hi

/-- Concrete arrays for the C8 witness: one double vector, one short
vector, one short matrix, one double matrix. -/
def wArrays : List NamedArray :=
  [NamedArray.dvec (nameBytes "time") [3 / 2, 5 / 2],
   NamedArray.svec (nameBytes "magX") [3, -4] 0,
   NamedArray.smat (nameBytes "corr1") 2 2 (fun j i => (j : Int) + i),
   NamedArray.dmat (nameBytes "velX") 1 2 (fun _ i => (i : ℚ))]

/-- Witness for C8 on the concrete array list. -/
theorem c8_container_roundtrip_witness :
    readAll (writeAll 0 wArrays) = some (wArrays.map (parsedOf 0)) ∧
    (colMajor 1 2 (fun _ i => (i : ℚ))).get? (1 * 1 + 0) = some ((1 : Nat) : ℚ) :=
  ⟨(c8_container_roundtrip 0 wArrays (by decide)).1,
   (c8_container_roundtrip 0 wArrays (by decide)).2.1 1 2 (fun _ i => (i : ℚ)) 0 1
     (by decide) (by decide)⟩

end Ad2cp
